import Mathlib

/-!
Shallow embedding of the CHIP-8 interpreter core from `src/chip8/cpu.py`
(class `CPU`), together with theorems checking the specification's claims
about it.

Modelling conventions:
* Python `int` values are `Nat` (they are never negative in this code,
  except the stack pointer `sp`, which `_00EE` can drive to `-1`; `sp`
  is therefore an `Int`).
* Python lists are Lean `List`s.  A Python indexing operation `l[i]`
  raises `IndexError` when the index is out of range and supports
  negative indices (`l[-k]` reads `l[len l - k]`); reads and writes are
  therefore modelled by `Option`-valued functions (`lget`/`lset` for the
  always-non-negative indices, `pyGetI`/`pySetI` for the `Int`-indexed
  stack accesses).  `none` models an uncaught Python exception
  (`IndexError`/`KeyError`), which halts interpretation.
* The dictionary dispatch tables (`opcodes`, `subroutine`, `arthimetic`,
  `skip_keys`, `misc`) become `match` expressions over the same keys; a
  key absent from the dictionary (`KeyError`) becomes the default arm
  returning `none`.
* `randint(0, 255)` in `_CXNN` is an injected `rand : Nat` argument.
* The pygame event loop in `_FX0A` consumes an explicit list of events
  (`pygame.event.wait()` takes the next one); an empty list means the
  loop is still blocked inside the handler.
-/

namespace Chip8

/-- Python list read `l[i]` for a non-negative index: `some l[i]` when
`i < len l`, otherwise `IndexError` (`none`). -/
def lget {α : Type} (l : List α) (i : Nat) : Option α := l[i]?

/-- Python list write `l[i] = a` for a non-negative index. -/
def lset {α : Type} (l : List α) (i : Nat) (a : α) : Option (List α) :=
  if i < l.length then some (l.set i a) else none

/-- Python list read `l[i]` with a possibly negative index: indices in
`[-len l, len l)` are valid and negative indices count from the end. -/
def pyGetI {α : Type} (l : List α) (i : Int) : Option α :=
  if 0 ≤ i then lget l i.toNat
  else if -(l.length : Int) ≤ i then lget l (i + l.length).toNat
  else none

/-- Python list write `l[i] = a` with a possibly negative index. -/
def pySetI {α : Type} (l : List α) (i : Int) (a : α) : Option (List α) :=
  if 0 ≤ i then lset l i.toNat a
  else if -(l.length : Int) ≤ i then lset l (i + l.length).toNat a
  else none

/-- Source constants: `MEMORY = 4096`, `REGISTERS = 16`, `STACK = 16`,
`PROGRAM_COUNTER_START = 0x200`, `HEIGHT = 32`, `WIDTH = 64`, `KEYS = 16`. -/
def MEMORY : Nat := 4096
def REGISTERS : Nat := 16
def STACK : Nat := 16
def PROGRAM_COUNTER_START : Nat := 0x200
def HEIGHT : Nat := 32
def WIDTH : Nat := 64
def KEYS : Nat := 16

/-- The machine state: the mutable attributes of the Python `CPU` object. -/
structure CPUState where
  operand : Nat
  gfx : List Nat
  shouldDraw : Bool
  keys : List Bool
  memory : List Nat
  v : List Nat
  i : Nat
  pc : Nat
  stack : List Nat
  sp : Int
  delay : Nat
  sound : Nat
  deriving Repr, DecidableEq

/-- `FONTSET`: the 80-byte glyph table. -/
def FONTSET : List Nat :=
  [0xF0, 0x90, 0x90, 0x90, 0xF0,
   0x20, 0x60, 0x20, 0x20, 0x70,
   0xF0, 0x10, 0xF0, 0x80, 0xF0,
   0xF0, 0x10, 0xF0, 0x10, 0xF0,
   0x90, 0x90, 0xF0, 0x10, 0x10,
   0xF0, 0x80, 0xF0, 0x10, 0xF0,
   0xF0, 0x80, 0xF0, 0x90, 0xF0,
   0xF0, 0x10, 0x20, 0x40, 0x40,
   0xF0, 0x90, 0xF0, 0x90, 0xF0,
   0xF0, 0x90, 0xF0, 0x10, 0xF0,
   0xF0, 0x90, 0xF0, 0x90, 0x90,
   0xE0, 0x90, 0xE0, 0x90, 0xE0,
   0xF0, 0x80, 0x80, 0x80, 0xF0,
   0xE0, 0x90, 0x90, 0x90, 0xE0,
   0xF0, 0x80, 0xF0, 0x80, 0xF0,
   0xF0, 0x80, 0xF0, 0x80, 0x80]

/-- `CPU.__init__` followed by `load_font`: all-zero state, `pc = 0x200`,
and the font set written to memory addresses `0x0`–`0x4F`. -/
def cpuInit : CPUState :=
  { operand := 0
    gfx := List.replicate (WIDTH * HEIGHT) 0
    shouldDraw := false
    keys := List.replicate KEYS false
    memory := FONTSET ++ List.replicate (MEMORY - 80) 0
    v := List.replicate REGISTERS 0
    i := 0
    pc := PROGRAM_COUNTER_START
    stack := List.replicate STACK 0
    sp := 0
    delay := 0
    sound := 0 }

/-- `get_nnn`: the lowest 12 bits of an instruction. -/
def get_nnn (opcode : Nat) : Nat := opcode &&& 0x0FFF

/-- `get_nn`: the lowest 8 bits of an instruction. -/
def get_nn (opcode : Nat) : Nat := opcode &&& 0x00FF

/-- `get_n`: the lowest 4 bits of an instruction. -/
def get_n (opcode : Nat) : Nat := opcode &&& 0x000F

/-- `get_x`: the lower 4 bits of the high byte of an instruction. -/
def get_x (opcode : Nat) : Nat := (opcode &&& 0x0F00) >>> 8

/-- `get_y`: the higher 4 bits of the low byte of an instruction. -/
def get_y (opcode : Nat) : Nat := (opcode &&& 0x00F0) >>> 4

/-- `decode_opcode`: the most significant nibble, still in place. -/
def decode_opcode (opcode : Nat) : Nat := opcode &&& 0xF000

/-- `fetch_opcode`: big-endian 16-bit word at `pc`. -/
def fetch_opcode (s : CPUState) : Option Nat := do
  let hi ← lget s.memory s.pc
  let lo ← lget s.memory (s.pc + 1)
  some ((hi <<< 8) ||| lo)

/-- `update_timers`. -/
def update_timers (s : CPUState) : CPUState :=
  let s := if s.delay > 0 then { s with delay := s.delay - 1 } else s
  if s.sound > 0 then { s with sound := s.sound - 1 } else s

/-- `_00E0`: clear the screen.  The Python loop writes `gfx[0]`–`gfx[2047]`. -/
def op00E0 (s : CPUState) : Option CPUState :=
  if WIDTH * HEIGHT ≤ s.gfx.length then
    some { s with gfx := List.replicate (WIDTH * HEIGHT) 0 ++ s.gfx.drop (WIDTH * HEIGHT)
                  shouldDraw := true
                  pc := s.pc + 2 }
  else none

/-- `_00EE`: return from a subroutine (`sp -= 1; pc = stack[sp] + 2`). -/
def op00EE (s : CPUState) : Option CPUState := do
  let top ← pyGetI s.stack (s.sp - 1)
  some { s with sp := s.sp - 1, pc := top + 2 }

/-- `_1NNN`: jump to address NNN. -/
def op1NNN (s : CPUState) (opcode : Nat) : Option CPUState :=
  some { s with pc := get_nnn opcode }

/-- `_2NNN`: call subroutine (`stack[sp] = pc; sp += 1; pc = NNN`). -/
def op2NNN (s : CPUState) (opcode : Nat) : Option CPUState := do
  let st ← pySetI s.stack s.sp s.pc
  some { s with stack := st, sp := s.sp + 1, pc := get_nnn opcode }

/-- `_3XNN`: skip next instruction if `v[x] == NN`. -/
def op3XNN (s : CPUState) (opcode : Nat) : Option CPUState := do
  let vx ← lget s.v (get_x opcode)
  let pc1 := if vx = get_nn opcode then s.pc + 2 else s.pc
  some { s with pc := pc1 + 2 }

/-- `_4XNN`: skip next instruction if `v[x] != NN`. -/
def op4XNN (s : CPUState) (opcode : Nat) : Option CPUState := do
  let vx ← lget s.v (get_x opcode)
  let pc1 := if vx ≠ get_nn opcode then s.pc + 2 else s.pc
  some { s with pc := pc1 + 2 }

/-- `_5XY0`: skip next instruction if `v[x] == v[y]`. -/
def op5XY0 (s : CPUState) (opcode : Nat) : Option CPUState := do
  let vx ← lget s.v (get_x opcode)
  let vy ← lget s.v (get_y opcode)
  let pc1 := if vx = vy then s.pc + 2 else s.pc
  some { s with pc := pc1 + 2 }

/-- `_6XNN`: store NN in `v[x]`. -/
def op6XNN (s : CPUState) (opcode : Nat) : Option CPUState := do
  let v1 ← lset s.v (get_x opcode) (get_nn opcode)
  some { s with v := v1, pc := s.pc + 2 }

/-- `_7XNN`: add NN to `v[x]` modulo 256. -/
def op7XNN (s : CPUState) (opcode : Nat) : Option CPUState := do
  let vx ← lget s.v (get_x opcode)
  let v1 ← lset s.v (get_x opcode) ((vx + get_nn opcode) % 256)
  some { s with v := v1, pc := s.pc + 2 }

/-- `_8XY0`: `v[x] = v[y]`. -/
def op8XY0 (s : CPUState) (x y : Nat) : Option CPUState := do
  let vy ← lget s.v y
  let v1 ← lset s.v x vy
  some { s with v := v1, pc := s.pc + 2 }

/-- `_8XY1`: `v[x] |= v[y]`. -/
def op8XY1 (s : CPUState) (x y : Nat) : Option CPUState := do
  let vx ← lget s.v x
  let vy ← lget s.v y
  let v1 ← lset s.v x (vx ||| vy)
  some { s with v := v1, pc := s.pc + 2 }

/-- `_8XY2`: `v[x] &= v[y]`. -/
def op8XY2 (s : CPUState) (x y : Nat) : Option CPUState := do
  let vx ← lget s.v x
  let vy ← lget s.v y
  let v1 ← lset s.v x (vx &&& vy)
  some { s with v := v1, pc := s.pc + 2 }

/-- `_8XY3`: `v[x] ^= v[y]`. -/
def op8XY3 (s : CPUState) (x y : Nat) : Option CPUState := do
  let vx ← lget s.v x
  let vy ← lget s.v y
  let v1 ← lset s.v x (vx ^^^ vy)
  some { s with v := v1, pc := s.pc + 2 }

/-- `_8XY4`: add with carry flag.  The carry is written to `v[0xF]`
*before* the addition, and the addition then re-reads `v[x]` and `v[y]`
from the updated register file (visible when `x` or `y` is `0xF`). -/
def op8XY4 (s : CPUState) (x y : Nat) : Option CPUState := do
  let vx ← lget s.v x
  let vy ← lget s.v y
  let v1 ← lset s.v 0xF (if vx + vy > 255 then 1 else 0)
  let vx1 ← lget v1 x
  let vy1 ← lget v1 y
  let v2 ← lset v1 x ((vx1 + vy1) % 256)
  some { s with v := v2, pc := s.pc + 2 }

/-- `_8XY5`: subtract with borrow flag (`v[x] -= v[y]`). -/
def op8XY5 (s : CPUState) (x y : Nat) : Option CPUState := do
  let vx ← lget s.v x
  let vy ← lget s.v y
  if vx < vy then
    let v1 ← lset s.v x (256 + vx - vy)
    let v2 ← lset v1 0xF 0
    some { s with v := v2, pc := s.pc + 2 }
  else
    let v1 ← lset s.v x (vx - vy)
    let v2 ← lset v1 0xF 1
    some { s with v := v2, pc := s.pc + 2 }

/-- `_8XY6`: `v[0xF] = v[y] & 1; v[y] >>= 1; v[x] = v[y]`. -/
def op8XY6 (s : CPUState) (x y : Nat) : Option CPUState := do
  let vy ← lget s.v y
  let v1 ← lset s.v 0xF (vy &&& 0x01)
  let vy1 ← lget v1 y
  let v2 ← lset v1 y (vy1 >>> 1)
  let vy2 ← lget v2 y
  let v3 ← lset v2 x vy2
  some { s with v := v3, pc := s.pc + 2 }

/-- `_8XY7`: `v[x] = v[y] - v[x]` with borrow flag. -/
def op8XY7 (s : CPUState) (x y : Nat) : Option CPUState := do
  let vx ← lget s.v x
  let vy ← lget s.v y
  if vy < vx then
    let v1 ← lset s.v x (256 + vy - vx)
    let v2 ← lset v1 0xF 0
    some { s with v := v2, pc := s.pc + 2 }
  else
    let v1 ← lset s.v x (vy - vx)
    let v2 ← lset v1 0xF 1
    some { s with v := v2, pc := s.pc + 2 }

/-- `_8XYE`: `v[0xF] = (v[y] & 0x80) >> 7; v[y] <<= 1; v[x] = v[y]`.
Note: the left shift is *not* reduced modulo 256 in the source. -/
def op8XYE (s : CPUState) (x y : Nat) : Option CPUState := do
  let vy ← lget s.v y
  let v1 ← lset s.v 0xF ((vy &&& 0x80) >>> 7)
  let vy1 ← lget v1 y
  let v2 ← lset v1 y (vy1 <<< 1)
  let vy2 ← lget v2 y
  let v3 ← lset v2 x vy2
  some { s with v := v3, pc := s.pc + 2 }

/-- `_9XY0`: skip next instruction if `v[x] != v[y]`. -/
def op9XY0 (s : CPUState) (opcode : Nat) : Option CPUState := do
  let vx ← lget s.v (get_x opcode)
  let vy ← lget s.v (get_y opcode)
  let pc1 := if vx ≠ vy then s.pc + 2 else s.pc
  some { s with pc := pc1 + 2 }

/-- `_ANNN`: `i = NNN`. -/
def opANNN (s : CPUState) (opcode : Nat) : Option CPUState :=
  some { s with i := get_nnn opcode, pc := s.pc + 2 }

/-- `_BNNN`: jump to `NNN + v[0]`. -/
def opBNNN (s : CPUState) (opcode : Nat) : Option CPUState := do
  let v0 ← lget s.v 0
  some { s with pc := get_nnn opcode + v0 }

/-- `_CXNN`: `v[x] = randint(0, 255) & NN`, with the random byte injected
as the `rand` argument. -/
def opCXNN (rand : Nat) (s : CPUState) (opcode : Nat) : Option CPUState := do
  let v1 ← lset s.v (get_x opcode) (rand &&& get_nn opcode)
  some { s with v := v1, pc := s.pc + 2 }

/-- Inner loop of `_DXYN` (`for x in range(8)`): test each sprite bit and
XOR it into the flat display buffer at `posX + x + base`, recording a
collision in `v[0xF]`.  `cols` is the list of remaining column indices. -/
def drawCols (pixel posX base : Nat) : List Nat → List Nat × List Nat → Option (List Nat × List Nat)
  | [], gv => some gv
  | x :: xs, (gfx, v) =>
    if pixel &&& (0x80 >>> x) ≠ 0 then do
      let old ← lget gfx (posX + x + base)
      let v1 ← if old = 1 then lset v 0xF 1 else some v
      let gfx1 ← lset gfx (posX + x + base) (old ^^^ 1)
      drawCols pixel posX base xs (gfx1, v1)
    else
      drawCols pixel posX base xs (gfx, v)

/-- Outer loop of `_DXYN` (`for y in range(height)`): read the sprite byte
at `memory[i + y]` and draw its row. -/
def drawRows (mem : List Nat) (i posX posY : Nat) : List Nat → List Nat × List Nat → Option (List Nat × List Nat)
  | [], gv => some gv
  | y :: ys, (gfx, v) => do
    let pixel ← lget mem (i + y)
    let gv1 ← drawCols pixel posX ((posY + y) * 64) (List.range 8) (gfx, v)
    drawRows mem i posX posY ys gv1

/-- `_DXYN`: draw an N-byte sprite at `(v[x], v[y])`. -/
def opDXYN (s : CPUState) (opcode : Nat) : Option CPUState := do
  let posX ← lget s.v (get_x opcode)
  let posY ← lget s.v (get_y opcode)
  let height := get_n opcode
  let v1 ← lset s.v 0xF 0
  let gv ← drawRows s.memory s.i posX posY (List.range height) (s.gfx, v1)
  some { s with gfx := gv.1, v := gv.2, shouldDraw := true, pc := s.pc + 2 }

/-- `_EX9E`: skip next instruction if the key `v[x]` is pressed. -/
def opEX9E (s : CPUState) (x : Nat) : Option CPUState := do
  let vx ← lget s.v x
  let k ← lget s.keys vx
  let pc1 := if k then s.pc + 2 else s.pc
  some { s with pc := pc1 + 2 }

/-- `_EXA1`: skip next instruction if the key `v[x]` is not pressed. -/
def opEXA1 (s : CPUState) (x : Nat) : Option CPUState := do
  let vx ← lget s.v x
  let k ← lget s.keys vx
  let pc1 := if !k then s.pc + 2 else s.pc
  some { s with pc := pc1 + 2 }

/-- `_FX07`: `v[x] = delay`. -/
def opFX07 (s : CPUState) (x : Nat) : Option CPUState := do
  let v1 ← lset s.v x s.delay
  some { s with v := v1, pc := s.pc + 2 }

/-- A pygame event as observed by `_FX0A`: a `KEYDOWN` (carrying the
`pygame.key.get_pressed()` snapshot restricted to the 16 keys of
`KEY_MAP`, indexed by their CHIP-8 value), a `QUIT`, or any other event. -/
inductive Event where
  | keydown (pressed : List Bool) : Event
  | quit : Event
  | other : Event
  deriving Repr, DecidableEq

/-- The `for key, val in KEY_MAP.items()` scan inside `_FX0A`: for each
mapped key that is pressed (in insertion order `0x0`–`0xF`) write its
value to `v[x]` and record that a key was seen. -/
def keyScan (v : List Nat) (x : Nat) (pressed : List Bool) : List Nat → Option (List Nat × Bool)
  | [] => some (v, false)
  | val :: vals =>
    if pressed.getD val false then do
      let v1 ← lset v x val
      match keyScan v1 x pressed vals with
      | some (v2, _) => some (v2, true)
      | none => none
    else
      keyScan v x pressed vals

/-- The `while not is_key_pressed` loop of `_FX0A`: each iteration takes
the next event from `pygame.event.wait()`.  A `QUIT` event calls `exit()`
(process termination, modelled `none`); exhausting the event list means
the loop is still blocked inside the handler waiting for another event
(also `none`: the handler has not returned). -/
def fx0aLoop (s : CPUState) (x : Nat) : List Event → Option CPUState
  | [] => none
  | Event.quit :: _ => none
  | Event.other :: rest => fx0aLoop s x rest
  | Event.keydown pressed :: rest =>
    match keyScan s.v x pressed (List.range 16) with
    | none => none
    | some (v1, isPressed) =>
      if isPressed then some { s with v := v1, pc := s.pc + 2 }
      else fx0aLoop { s with v := v1 } x rest

/-- `_FX0A`: wait for a keypress and store it in `v[x]`. -/
def opFX0A (events : List Event) (s : CPUState) (x : Nat) : Option CPUState :=
  fx0aLoop s x events

/-- `_FX15`: `delay = v[x]`. -/
def opFX15 (s : CPUState) (x : Nat) : Option CPUState := do
  let vx ← lget s.v x
  some { s with delay := vx, pc := s.pc + 2 }

/-- `_FX18`: `sound = v[x]`. -/
def opFX18 (s : CPUState) (x : Nat) : Option CPUState := do
  let vx ← lget s.v x
  some { s with sound := vx, pc := s.pc + 2 }

/-- `_FX1E`: `i += v[x]`. -/
def opFX1E (s : CPUState) (x : Nat) : Option CPUState := do
  let vx ← lget s.v x
  some { s with i := s.i + vx, pc := s.pc + 2 }

/-- `_FX29`: `i = v[x] * 5`. -/
def opFX29 (s : CPUState) (x : Nat) : Option CPUState := do
  let vx ← lget s.v x
  some { s with i := vx * 5, pc := s.pc + 2 }

/-- `_FX33`: binary-coded decimal of `v[x]` at `i`, `i+1`, `i+2`
(the loop runs `j = 2, 1, 0`). -/
def opFX33 (s : CPUState) (x : Nat) : Option CPUState := do
  let n ← lget s.v x
  let m2 ← lset s.memory (s.i + 2) (n % 10)
  let m1 ← lset m2 (s.i + 1) ((n / 10) % 10)
  let m0 ← lset m1 (s.i + 0) ((n / 100) % 10)
  some { s with memory := m0, pc := s.pc + 2 }

/-- Loop body of `_FX55`: at iteration `j` write `memory[i + j] = v[j]`
and then increment `i`, so the address written at iteration `j` is
`i0 + 2 * j` where `i0` is the initial index register. -/
def fx55Loop (v : List Nat) : List Nat → List Nat → Nat → Option (List Nat × Nat)
  | [], mem, i => some (mem, i)
  | j :: js, mem, i => do
    let vj ← lget v j
    let mem1 ← lset mem (i + j) vj
    fx55Loop v js mem1 (i + 1)

/-- `_FX55`: store `v[0]`–`v[x]` to memory; `i` advances once per register. -/
def opFX55 (s : CPUState) (x : Nat) : Option CPUState := do
  let mi ← fx55Loop s.v (List.range (x + 1)) s.memory s.i
  some { s with memory := mi.1, i := mi.2, pc := s.pc + 2 }

/-- Loop body of `_FX65`: at iteration `j` read `v[j] = memory[i + j]`
and then increment `i`. -/
def fx65Loop (mem : List Nat) : List Nat → List Nat → Nat → Option (List Nat × Nat)
  | [], v, i => some (v, i)
  | j :: js, v, i => do
    let mj ← lget mem (i + j)
    let v1 ← lset v j mj
    fx65Loop mem js v1 (i + 1)

/-- `_FX65`: load `v[0]`–`v[x]` from memory; `i` advances once per register. -/
def opFX65 (s : CPUState) (x : Nat) : Option CPUState := do
  let vi ← fx65Loop s.memory (List.range (x + 1)) s.v s.i
  some { s with v := vi.1, i := vi.2, pc := s.pc + 2 }

/-- `_0KKK`: the `subroutine` table, keyed on the low nibble
(`{0x0: _00E0, 0xE: _00EE}`); a missing key is a `KeyError`. -/
def op0KKK (s : CPUState) (opcode : Nat) : Option CPUState :=
  match get_n opcode with
  | 0x0 => op00E0 s
  | 0xE => op00EE s
  | _ => none

/-- `_8XYK`: the `arthimetic` table, keyed on the low nibble. -/
def op8XYK (s : CPUState) (opcode : Nat) : Option CPUState :=
  match get_n opcode with
  | 0x0 => op8XY0 s (get_x opcode) (get_y opcode)
  | 0x1 => op8XY1 s (get_x opcode) (get_y opcode)
  | 0x2 => op8XY2 s (get_x opcode) (get_y opcode)
  | 0x3 => op8XY3 s (get_x opcode) (get_y opcode)
  | 0x4 => op8XY4 s (get_x opcode) (get_y opcode)
  | 0x5 => op8XY5 s (get_x opcode) (get_y opcode)
  | 0x6 => op8XY6 s (get_x opcode) (get_y opcode)
  | 0x7 => op8XY7 s (get_x opcode) (get_y opcode)
  | 0xE => op8XYE s (get_x opcode) (get_y opcode)
  | _ => none

/-- `_EXKK`: the `skip_keys` table, keyed on `get_n` — the low *nibble*
(`{0xE: _EX9E, 0x1: _EXA1}`). -/
def opEXKK (s : CPUState) (opcode : Nat) : Option CPUState :=
  match get_n opcode with
  | 0xE => opEX9E s (get_x opcode)
  | 0x1 => opEXA1 s (get_x opcode)
  | _ => none

/-- `_FXKK`: the `misc` table, keyed on `get_nn` — the low *byte*. -/
def opFXKK (events : List Event) (s : CPUState) (opcode : Nat) : Option CPUState :=
  match get_nn opcode with
  | 0x07 => opFX07 s (get_x opcode)
  | 0x0A => opFX0A events s (get_x opcode)
  | 0x15 => opFX15 s (get_x opcode)
  | 0x18 => opFX18 s (get_x opcode)
  | 0x1E => opFX1E s (get_x opcode)
  | 0x29 => opFX29 s (get_x opcode)
  | 0x33 => opFX33 s (get_x opcode)
  | 0x55 => opFX55 s (get_x opcode)
  | 0x65 => opFX65 s (get_x opcode)
  | _ => none

/-- `execute_opcode`: record the operand, then dispatch through the
`opcodes` table keyed on `decode_opcode` (all 16 class nibbles are
registered). -/
def execute_opcode (events : List Event) (rand : Nat) (s : CPUState) (opcode : Nat) : Option CPUState :=
  let s1 := { s with operand := opcode }
  match decode_opcode opcode with
  | 0x0000 => op0KKK s1 opcode
  | 0x1000 => op1NNN s1 opcode
  | 0x2000 => op2NNN s1 opcode
  | 0x3000 => op3XNN s1 opcode
  | 0x4000 => op4XNN s1 opcode
  | 0x5000 => op5XY0 s1 opcode
  | 0x6000 => op6XNN s1 opcode
  | 0x7000 => op7XNN s1 opcode
  | 0x8000 => op8XYK s1 opcode
  | 0x9000 => op9XY0 s1 opcode
  | 0xA000 => opANNN s1 opcode
  | 0xB000 => opBNNN s1 opcode
  | 0xC000 => opCXNN rand s1 opcode
  | 0xD000 => opDXYN s1 opcode
  | 0xE000 => opEXKK s1 opcode
  | 0xF000 => opFXKK events s1 opcode
  | _ => none

/-- `execute_cycle`: fetch, execute, update timers. -/
def execute_cycle (events : List Event) (rand : Nat) (s : CPUState) : Option CPUState := do
  let opcode ← fetch_opcode s
  let s1 ← execute_opcode events rand s opcode
  some (update_timers s1)

/-- An instruction word none of the dispatch tables has a handler for:
every class nibble is registered in `opcodes`, so only the sub-tables of
classes `0x0`, `0x8`, `0xE` and `0xF` can miss. -/
def unassignedOpcode (opcode : Nat) : Bool :=
  match decode_opcode opcode with
  | 0x0000 => !(get_n opcode = 0x0 || get_n opcode = 0xE)
  | 0x8000 => !(get_n opcode ≤ 0x7 || get_n opcode = 0xE)
  | 0xE000 => !(get_n opcode = 0xE || get_n opcode = 0x1)
  | 0xF000 => !([0x07, 0x0A, 0x15, 0x18, 0x1E, 0x29, 0x33, 0x55, 0x65].contains (get_nn opcode))
  | _ => false

/-- An event that does not satisfy the exit condition of the `_FX0A`
event loop: not a `QUIT` (which would terminate the process) and not a
`KEYDOWN` whose snapshot has one of the 16 `KEY_MAP` keys pressed. -/
def stillWaiting (e : Event) : Bool :=
  match e with
  | Event.quit => false
  | Event.other => true
  | Event.keydown pressed => !((List.range 16).any (fun val => pressed.getD val false))

/-- A concrete drawing scenario, parameterized by the horizontal start
position `px`: a full-size (2048-pixel) display buffer, `v[0] = px`,
`v[1] = 0`, and a one-byte sprite `0x80` at memory address 0. -/
def spriteState (px : Nat) : CPUState :=
  { operand := 0
    gfx := List.replicate 2048 0
    shouldDraw := false
    keys := List.replicate 16 false
    memory := [0x80]
    v := (List.replicate 16 0).set 0 px
    i := 0
    pc := 0x200
    stack := List.replicate 16 0
    sp := 0
    delay := 0
    sound := 0 }

end Chip8

namespace Chip8

/-- A convenient well-formed machine state for concrete instantiations:
all-zero registers, empty stack, no keys pressed. -/
def testState : CPUState :=
  { operand := 0
    gfx := []
    shouldDraw := false
    keys := List.replicate 16 false
    memory := []
    v := List.replicate 16 0
    i := 0
    pc := 0x200
    stack := List.replicate 16 0
    sp := 0
    delay := 0
    sound := 0 }

theorem lget_eq_some {α : Type} {l : List α} {i : Nat} (h : i < l.length) :
    lget l i = some (l.getD i (l.get ⟨i, h⟩)) := by
  simp [lget, List.getElem?_eq_getElem h]

theorem lget_some_lt {α : Type} {l : List α} {i : Nat} {a : α}
    (h : lget l i = some a) : i < l.length := by
  by_contra hn
  simp [lget, List.getElem?_eq_none_iff.mpr (Nat.le_of_not_lt hn)] at h

theorem lget_some_getD {l : List Nat} {i : Nat} {a : Nat}
    (h : lget l i = some a) : l.getD i 0 = a := by
  simp [lget] at h
  simp [List.getD_eq_getElem?_getD, h]

theorem lset_eq_some {α : Type} {l : List α} {i : Nat} (h : i < l.length) (a : α) :
    lset l i a = some (l.set i a) := by
  simp [lset, h]

end Chip8

namespace Chip8

/-- C1 (counterexample): executing the return instruction `00EE` with an
empty call stack (`sp = 0`) does **not** halt interpretation: from the
freshly constructed machine state restricted here to a zeroed 16-slot
stack, `_00EE` succeeds, continuing with `sp = -1` and a program counter
derived from the stack contents (`stack[-1] + 2 = stack[15] + 2 = 2`),
contradicting the claimed fatal StackUnderflow. -/
theorem c1_counterexample :
    op00EE testState = some { testState with sp := -1, pc := 2 } := by
  decide

/-- C1 (amended): executing `00EE` with stack pointer 0 continues rather
than halting: Python's negative indexing makes `stack[sp - 1] = stack[-1]`
read the *last* stack slot, so the new state has `sp = -1` and
`pc = stack[15] + 2`. -/
theorem c1_amended (s : CPUState) (hlen : s.stack.length = 16) (hsp : s.sp = 0) :
    op00EE s = some { s with sp := -1, pc := s.stack.getD 15 0 + 2 } := by
  have h15 : (15 : Nat) < s.stack.length := by omega
  simp [op00EE, pyGetI, hsp, hlen, lget, List.getElem?_eq_getElem h15]

/-- C1 (witness): the amended statement at the concrete zeroed state. -/
theorem c1_witness :
    op00EE testState = some { testState with sp := -1, pc := testState.stack.getD 15 0 + 2 } :=
  c1_amended testState (by decide) rfl

/-- C6: call then return is a round trip: from any well-formed state with
`pc = 0x200` and `sp = 0`, executing `2NNN` with target `0x300` pushes
`0x200`, sets `sp = 1` and `pc = 0x300`; an immediate `00EE` restores
`sp = 0` and sets `pc = 0x202`. -/
theorem c6_call_return_round_trip (s : CPUState) (hlen : s.stack.length = 16)
    (hpc : s.pc = 0x200) (hsp : s.sp = 0) :
    ∃ s1 s2, op2NNN s 0x2300 = some s1 ∧ s1.sp = 1 ∧
      s1.stack.getD 0 0 = 0x200 ∧ s1.pc = 0x300 ∧
      op00EE s1 = some s2 ∧ s2.pc = 0x202 ∧ s2.sp = 0 := by
  have h0 : (0 : Nat) < s.stack.length := by omega
  refine ⟨{ s with stack := s.stack.set 0 0x200, sp := 1, pc := 0x300 },
    { s with stack := s.stack.set 0 0x200, sp := 0, pc := 0x202 }, ?_, rfl, ?_, rfl, ?_, rfl, rfl⟩
  · simp [op2NNN, pySetI, hsp, hpc, lset, h0, get_nnn]
    decide
  · simp [List.getD_eq_getElem?_getD, List.getElem?_set_self h0]
  · simp [op00EE, pyGetI, lget, List.getElem?_set_self h0]

/-- C6 (witness): the round trip at the concrete freshly constructed
state (zeroed stack, `pc = 0x200`, `sp = 0`). -/
theorem c6_witness :
    ∃ s1 s2, op2NNN testState 0x2300 = some s1 ∧ s1.sp = 1 ∧
      s1.stack.getD 0 0 = 0x200 ∧ s1.pc = 0x300 ∧
      op00EE s1 = some s2 ∧ s2.pc = 0x202 ∧ s2.sp = 0 :=
  c6_call_return_round_trip testState (by decide) rfl rfl

end Chip8

namespace Chip8

/-- C2 (code bug): the left-shift handler `8XYE` violates the claimed
register invariant.  From a well-formed state with `v[1] = 0x80`,
executing `_8XYE(0, 1)` leaves `v[0] = v[1] = 256 > 255`: the source
shifts `v[y] <<= 1` without reducing modulo 256 (the repository's own
`test_8XYE` expects an in-range result, so the missing mask is a slip
in the code, not in the claim). -/
theorem c2_shift_overflow_bug :
    (op8XYE { testState with v := (List.replicate 16 0).set 1 0x80 } 0 1).map
      (fun t => (t.v.getD 0 0, t.v.getD 1 0, t.v.getD 15 0)) = some (256, 256, 1)
    ∧ ¬ (256 ≤ 255) := by
  decide

/-- C5 (counterexample): the ALU ADD claim fails when `Y = 0xF`: with
`v[0] = 0` and `v[0xF] = 5`, executing `_8XY4(0, 15)` stores `0` in `v[0]`
(the carry flag overwrites `v[0xF]` before the addition re-reads it),
not `(0 + 5) % 256 = 5` as the claim requires for every pair. -/
theorem c5_counterexample :
    (op8XY4 { testState with v := (List.replicate 16 0).set 15 5 } 0 15).map
      (fun t => t.v.getD 0 0) = some 0
    ∧ (0 : Nat) ≠ (0 + 5) % 256 := by
  decide

/-- C5 (amended): for register indices `X ≠ 0xF` and `Y ≠ 0xF`, `8XY4`
sets `VF` to 1 exactly when the unsigned sum of the old `VX` and `VY`
exceeds 255 (else 0), stores the sum modulo 256 in `VX`, and advances
the program counter by 2. -/
theorem c5_amended (s : CPUState) (x y : Nat) (hlen : s.v.length = 16)
    (hx : x < 16) (hy : y < 16) (hxF : x ≠ 15) (hyF : y ≠ 15) :
    ∃ t, op8XY4 s x y = some t ∧
      t.v.getD x 0 = (s.v.getD x 0 + s.v.getD y 0) % 256 ∧
      t.v.getD 15 0 = (if 255 < s.v.getD x 0 + s.v.getD y 0 then 1 else 0) ∧
      t.pc = s.pc + 2 ∧ t.v.length = 16 := by
  have hx' : x < s.v.length := by omega
  have hy' : y < s.v.length := by omega
  have h15 : (15 : Nat) < s.v.length := by omega
  have e1 : lget s.v x = some (s.v.getD x 0) := by
    simp [lget, List.getElem?_eq_getElem hx', List.getD_eq_getElem?_getD]
  have e2 : lget s.v y = some (s.v.getD y 0) := by
    simp [lget, List.getElem?_eq_getElem hy', List.getD_eq_getElem?_getD]
  refine ⟨{ s with
      v := (s.v.set 15 (if 255 < s.v.getD x 0 + s.v.getD y 0 then 1 else 0)).set x
        ((s.v.getD x 0 + s.v.getD y 0) % 256)
      pc := s.pc + 2 }, ?_, ?_, ?_, rfl, ?_⟩
  · have e3 : lset s.v 15 (if 255 < s.v.getD x 0 + s.v.getD y 0 then 1 else 0) =
        some (s.v.set 15 (if 255 < s.v.getD x 0 + s.v.getD y 0 then 1 else 0)) :=
      lset_eq_some h15 _
    have e4 : lget (s.v.set 15 (if 255 < s.v.getD x 0 + s.v.getD y 0 then 1 else 0)) x =
        some (s.v.getD x 0) := by
      simp [lget, List.getElem?_set_ne (Ne.symm hxF), List.getElem?_eq_getElem hx',
        List.getD_eq_getElem?_getD]
    have e5 : lget (s.v.set 15 (if 255 < s.v.getD x 0 + s.v.getD y 0 then 1 else 0)) y =
        some (s.v.getD y 0) := by
      simp [lget, List.getElem?_set_ne (Ne.symm hyF), List.getElem?_eq_getElem hy',
        List.getD_eq_getElem?_getD]
    have e6 : lset (s.v.set 15 (if 255 < s.v.getD x 0 + s.v.getD y 0 then 1 else 0)) x
        ((s.v.getD x 0 + s.v.getD y 0) % 256) =
        some ((s.v.set 15 (if 255 < s.v.getD x 0 + s.v.getD y 0 then 1 else 0)).set x
          ((s.v.getD x 0 + s.v.getD y 0) % 256)) :=
      lset_eq_some (by simpa using hx') _
    simp only [op8XY4, Option.bind_eq_bind, e1, e2, Option.some_bind, gt_iff_lt, e3, e4, e5, e6]
  · simp [List.getD_eq_getElem?_getD, hx']
  · simp [List.getD_eq_getElem?_getD, List.getElem?_set_ne hxF, h15]
  · simp [hlen]

/-- C5 (witness): the amended statement at the specification's own test
vector `V0 = 0xF0`, `V1 = 0x1F` (sum overflows past 255). -/
theorem c5_witness :
    ∃ t, op8XY4 { testState with v := ((List.replicate 16 0).set 0 0xF0).set 1 0x1F } 0 1 = some t ∧
      t.v.getD 0 0 = (0xF0 + 0x1F) % 256 ∧
      t.v.getD 15 0 = 1 ∧
      t.pc = 0x202 ∧ t.v.length = 16 := by
  have h := c5_amended { testState with v := ((List.replicate 16 0).set 0 0xF0).set 1 0x1F }
    0 1 (by decide) (by decide) (by decide) (by decide) (by decide)
  simpa using h

end Chip8

namespace Chip8

/-- C9 (counterexample): the shift claim fails for the distinct pair
`X = 0xF`, `Y = 0`: with `v[0] = 4`, executing `_8XY6(15, 0)` leaves
`v[0xF] = 2` (the shifted value, written last), not the bit shifted out
of the old `VY` (`4 & 1 = 0`). -/
theorem c9_counterexample :
    (op8XY6 { testState with v := (List.replicate 16 0).set 0 4 } 15 0).map
      (fun t => t.v.getD 15 0) = some 2
    ∧ (2 : Nat) ≠ 4 &&& 0x01 := by
  decide

/-- C9 (amended): for distinct register indices `X` and `Y`, neither
equal to `0xF`, the shift handlers overwrite the source register `VY` as
well as `VX`: after `8XY6` both hold the old `VY` shifted right one bit
and `VF` holds its old least significant bit; after `8XYE` both hold the
old `VY` shifted left one bit (not reduced modulo 256) and `VF` holds its
old most significant bit.  Both advance the program counter by 2. -/
theorem c9_amended (s : CPUState) (x y : Nat) (hlen : s.v.length = 16)
    (hx : x < 16) (hy : y < 16) (hxy : x ≠ y) (hxF : x ≠ 15) (hyF : y ≠ 15) :
    (∃ t, op8XY6 s x y = some t ∧
      t.v.getD x 0 = s.v.getD y 0 >>> 1 ∧
      t.v.getD y 0 = s.v.getD y 0 >>> 1 ∧
      t.v.getD 15 0 = s.v.getD y 0 &&& 0x01 ∧
      t.pc = s.pc + 2) ∧
    (∃ t, op8XYE s x y = some t ∧
      t.v.getD x 0 = s.v.getD y 0 <<< 1 ∧
      t.v.getD y 0 = s.v.getD y 0 <<< 1 ∧
      t.v.getD 15 0 = (s.v.getD y 0 &&& 0x80) >>> 7 ∧
      t.pc = s.pc + 2) := by
  have hx' : x < s.v.length := by omega
  have hy' : y < s.v.length := by omega
  have h15 : (15 : Nat) < s.v.length := by omega
  have e2 : lget s.v y = some (s.v.getD y 0) := by
    simp [lget, List.getElem?_eq_getElem hy', List.getD_eq_getElem?_getD]
  constructor
  · refine ⟨{ s with
        v := ((s.v.set 15 (s.v.getD y 0 &&& 0x01)).set y (s.v.getD y 0 >>> 1)).set x
          (s.v.getD y 0 >>> 1)
        pc := s.pc + 2 }, ?_, ?_, ?_, ?_, rfl⟩
    · have e3 : lset s.v 15 (s.v.getD y 0 &&& 0x01) =
          some (s.v.set 15 (s.v.getD y 0 &&& 0x01)) := lset_eq_some h15 _
      have e4 : lget (s.v.set 15 (s.v.getD y 0 &&& 0x01)) y = some (s.v.getD y 0) := by
        simp [lget, List.getElem?_set_ne (Ne.symm hyF), List.getElem?_eq_getElem hy',
          List.getD_eq_getElem?_getD]
      have e5 : lset (s.v.set 15 (s.v.getD y 0 &&& 0x01)) y (s.v.getD y 0 >>> 1) =
          some ((s.v.set 15 (s.v.getD y 0 &&& 0x01)).set y (s.v.getD y 0 >>> 1)) :=
        lset_eq_some (by simpa using hy') _
      have e6 : lget ((s.v.set 15 (s.v.getD y 0 &&& 0x01)).set y (s.v.getD y 0 >>> 1)) y =
          some (s.v.getD y 0 >>> 1) := by
        simp [lget, hy']
      have e7 : lset ((s.v.set 15 (s.v.getD y 0 &&& 0x01)).set y (s.v.getD y 0 >>> 1)) x
          (s.v.getD y 0 >>> 1) =
          some (((s.v.set 15 (s.v.getD y 0 &&& 0x01)).set y (s.v.getD y 0 >>> 1)).set x
            (s.v.getD y 0 >>> 1)) :=
        lset_eq_some (by simpa using hx') _
      simp only [op8XY6, Option.bind_eq_bind, e2, Option.some_bind, e3, e4, e5, e6, e7]
    · simp [List.getD_eq_getElem?_getD, hx']
    · simp [List.getD_eq_getElem?_getD, List.getElem?_set_ne hxy, hy']
    · simp [List.getD_eq_getElem?_getD, List.getElem?_set_ne hxF,
        List.getElem?_set_ne hyF, h15]
  · refine ⟨{ s with
        v := ((s.v.set 15 ((s.v.getD y 0 &&& 0x80) >>> 7)).set y (s.v.getD y 0 <<< 1)).set x
          (s.v.getD y 0 <<< 1)
        pc := s.pc + 2 }, ?_, ?_, ?_, ?_, rfl⟩
    · have e3 : lset s.v 15 ((s.v.getD y 0 &&& 0x80) >>> 7) =
          some (s.v.set 15 ((s.v.getD y 0 &&& 0x80) >>> 7)) := lset_eq_some h15 _
      have e4 : lget (s.v.set 15 ((s.v.getD y 0 &&& 0x80) >>> 7)) y = some (s.v.getD y 0) := by
        simp [lget, List.getElem?_set_ne (Ne.symm hyF), List.getElem?_eq_getElem hy',
          List.getD_eq_getElem?_getD]
      have e5 : lset (s.v.set 15 ((s.v.getD y 0 &&& 0x80) >>> 7)) y (s.v.getD y 0 <<< 1) =
          some ((s.v.set 15 ((s.v.getD y 0 &&& 0x80) >>> 7)).set y (s.v.getD y 0 <<< 1)) :=
        lset_eq_some (by simpa using hy') _
      have e6 : lget ((s.v.set 15 ((s.v.getD y 0 &&& 0x80) >>> 7)).set y (s.v.getD y 0 <<< 1)) y =
          some (s.v.getD y 0 <<< 1) := by
        simp [lget, hy']
      have e7 : lset ((s.v.set 15 ((s.v.getD y 0 &&& 0x80) >>> 7)).set y (s.v.getD y 0 <<< 1)) x
          (s.v.getD y 0 <<< 1) =
          some (((s.v.set 15 ((s.v.getD y 0 &&& 0x80) >>> 7)).set y (s.v.getD y 0 <<< 1)).set x
            (s.v.getD y 0 <<< 1)) :=
        lset_eq_some (by simpa using hx') _
      simp only [op8XYE, Option.bind_eq_bind, e2, Option.some_bind, e3, e4, e5, e6, e7]
    · simp [List.getD_eq_getElem?_getD, hx']
    · simp [List.getD_eq_getElem?_getD, List.getElem?_set_ne hxy, hy']
    · simp [List.getD_eq_getElem?_getD, List.getElem?_set_ne hxF,
        List.getElem?_set_ne hyF, h15]

/-- C9 (witness): the amended statement at `X = 0`, `Y = 1`, `v[1] = 5`. -/
theorem c9_witness :
    (∃ t, op8XY6 { testState with v := (List.replicate 16 0).set 1 5 } 0 1 = some t ∧
      t.v.getD 0 0 = 5 >>> 1 ∧ t.v.getD 1 0 = 5 >>> 1 ∧
      t.v.getD 15 0 = 5 &&& 0x01 ∧ t.pc = 0x202) ∧
    (∃ t, op8XYE { testState with v := (List.replicate 16 0).set 1 5 } 0 1 = some t ∧
      t.v.getD 0 0 = 5 <<< 1 ∧ t.v.getD 1 0 = 5 <<< 1 ∧
      t.v.getD 15 0 = (5 &&& 0x80) >>> 7 ∧ t.pc = 0x202) := by
  have h := c9_amended { testState with v := (List.replicate 16 0).set 1 5 } 0 1
    (by decide) (by decide) (by decide) (by decide) (by decide) (by decide)
  simpa using h

end Chip8

namespace Chip8

/-- C7 (counterexample): the program-counter invariant fails.  Executing
jump `0x1201` sets `pc = 0x201`, an odd address; and executing
jump-with-offset `0xBFFF` with `v[0] = 0xFF` sets `pc = 0xFFF + 0xFF =
0x10FE ≥ 4096`, outside the memory range.  Neither is checked. -/
theorem c7_counterexample :
    (op1NNN testState 0x1201).map (fun t => t.pc) = some 0x201
    ∧ ¬ ((0x201 : Nat) % 2 = 0)
    ∧ (opBNNN { testState with v := (List.replicate 16 0).set 0 0xFF } 0xBFFF).map
        (fun t => t.pc) = some 0x10FE
    ∧ ¬ ((0x10FE : Nat) < 4096) := by
  decide

/-- C7 (amended): `1NNN` sets the program counter to exactly NNN, and
`BNNN` to exactly NNN + V0, for every operand and every value of `V0`;
no evenness or range restriction is enforced, so the claimed invariant
"even address in [0x200, 4096)" does not hold after these handlers. -/
theorem c7_amended (s : CPUState) (opcode : Nat) (hlen : s.v.length = 16) :
    op1NNN s opcode = some { s with pc := get_nnn opcode } ∧
    opBNNN s opcode = some { s with pc := get_nnn opcode + s.v.getD 0 0 } := by
  have h0 : (0 : Nat) < s.v.length := by omega
  constructor
  · rfl
  · have e0 : lget s.v 0 = some (s.v.getD 0 0) := by
      simp [lget, List.getElem?_eq_getElem h0, List.getD_eq_getElem?_getD]
    simp only [opBNNN, Option.bind_eq_bind, e0, Option.some_bind]

/-- C7 (witness): the amended statement at concrete operands. -/
theorem c7_witness :
    op1NNN testState 0x1234 = some { testState with pc := get_nnn 0x1234 } ∧
    opBNNN testState 0x1234 = some { testState with pc := get_nnn 0x1234 + testState.v.getD 0 0 } :=
  c7_amended testState 0x1234 (by decide)

end Chip8

namespace Chip8

/-- C4 (counterexample): the class-0xE second-level lookup is *not* keyed
on the low byte: the two words `0xE09E` and `0xE00E` agree in the low
nibble but differ in the low byte, yet dispatch to the same outcome
(both select `_EX9E`, which succeeds here). -/
theorem c4_counterexample :
    opEXKK testState 0xE09E = opEXKK testState 0xE00E
    ∧ (opEXKK testState 0xE09E).isSome = true := by
  decide

/-- C4 (amended): class 0xF is keyed on the low byte as claimed, but
class 0xE is keyed on the low *nibble* (`get_n`), like classes 0x0 and
0x8: any two class-0xE instruction words agreeing in the X field and the
low nibble (bits 0-3) — i.e. agreeing on `&&& 0x0F0F` — dispatch to the
same outcome, whatever the rest of their low bytes. -/
theorem c4_amended (s : CPUState) (a b : Nat) (ha : decode_opcode a = 0xE000)
    (hb : decode_opcode b = 0xE000) (hab : a &&& 0x0F0F = b &&& 0x0F0F) :
    opEXKK s a = opEXKK s b := by
  have hcn : (0x0F0F : Nat) &&& 0x000F = 0x000F := by decide
  have hcx : (0x0F0F : Nat) &&& 0x0F00 = 0x0F00 := by decide
  have hn : get_n a = get_n b := by
    unfold get_n
    calc a &&& 0x000F = a &&& 0x0F0F &&& 0x000F := by rw [Nat.and_assoc, hcn]
    _ = b &&& 0x0F0F &&& 0x000F := by rw [hab]
    _ = b &&& 0x000F := by rw [Nat.and_assoc, hcn]
  have hx : get_x a = get_x b := by
    unfold get_x
    calc (a &&& 0x0F00) >>> 8 = (a &&& 0x0F0F &&& 0x0F00) >>> 8 := by
          rw [Nat.and_assoc, hcx]
    _ = (b &&& 0x0F0F &&& 0x0F00) >>> 8 := by rw [hab]
    _ = (b &&& 0x0F00) >>> 8 := by rw [Nat.and_assoc, hcx]
  unfold opEXKK
  rw [hn, hx]

/-- C4 (witness): the amended statement at the concrete class-0xE pair
`0xE19E` / `0xE1FE` (same X field and low nibble, different low bytes). -/
theorem c4_witness : opEXKK testState 0xE19E = opEXKK testState 0xE1FE :=
  c4_amended testState 0xE19E 0xE1FE (by decide) (by decide) (by decide)

end Chip8

namespace Chip8

/-- C3: every instruction word whose dispatch has no registered handler
halts interpretation.  All 16 class nibbles are registered in the
top-level `opcodes` table, so the misses are exactly the sub-table misses
of classes 0x0, 0x8, 0xE and 0xF (`unassignedOpcode`); for every such
word and every state, execution raises `KeyError` (modelled `none`) —
no unassigned opcode is treated as a no-op. -/
theorem c3_unassigned_opcode_halts (events : List Event) (rand : Nat) (s : CPUState)
    (opcode : Nat) (h : unassignedOpcode opcode = true) :
    execute_opcode events rand s opcode = none := by
  unfold unassignedOpcode at h
  unfold execute_opcode
  split at h
  · rename_i heq
    simp only [heq]
    simp only [Bool.not_eq_eq_eq_not, Bool.not_true, decide_eq_false_iff_not] at h
    unfold op0KKK
    split
    · rename_i h2; simp [h2] at h
    · rename_i h2; simp [h2] at h
    · rfl
  · rename_i heq
    simp only [heq]
    simp only [Bool.not_eq_eq_eq_not, Bool.not_true, decide_eq_false_iff_not] at h
    unfold op8XYK
    split <;> rename_i h2 <;> simp [h2] at h ⊢
  · rename_i heq
    simp only [heq]
    simp only [Bool.not_eq_eq_eq_not, Bool.not_true, decide_eq_false_iff_not] at h
    unfold opEXKK
    split <;> rename_i h2 <;> simp [h2] at h ⊢
  · rename_i heq
    simp only [heq]
    simp only [Bool.not_eq_eq_eq_not, Bool.not_true, decide_eq_false_iff_not] at h
    unfold opFXKK
    split <;> rename_i h2 <;> simp [h2] at h ⊢
  · simp at h

/-- C3 (witness): the concrete word `0x8008` (class 0x8, sub-key 0x8
absent from the `arthimetic` table) halts from the concrete state. -/
theorem c3_witness :
    unassignedOpcode 0x8008 = true ∧ execute_opcode [] 0 testState 0x8008 = none :=
  ⟨by decide, c3_unassigned_opcode_halts [] 0 testState 0x8008 (by decide)⟩

end Chip8

namespace Chip8

/-- The `KEY_MAP` scan finds nothing when no mapped key is pressed: the
register file is unchanged and `is_key_pressed` stays false. -/
theorem keyScan_no_press (pressed : List Bool) (v : List Nat) (x : Nat)
    (vals : List Nat) (h : ∀ val ∈ vals, pressed.getD val false = false) :
    keyScan v x pressed vals = some (v, false) := by
  induction vals with
  | nil => rfl
  | cons val vals ih =>
    have h0 := h val (List.mem_cons_self val vals)
    simp only [keyScan, h0, Bool.false_eq_true, if_false]
    exact ih (fun w hw => h w (List.mem_cons_of_mem val hw))

/-- C8 (counterexample): `_FX0A` does not return control to the host
after a single polling attempt.  After one `pygame.event.wait()`
delivering a non-key event, the handler is still blocked inside its
`while` loop (it demands another event); in the same invocation a second
polling attempt is consumed, and only an event with a mapped key pressed
makes the handler return. -/
theorem c8_counterexample :
    fx0aLoop testState 0 [Event.other] = none
    ∧ (fx0aLoop testState 0
        [Event.other, Event.keydown (List.replicate 16 true)]).isSome = true := by
  decide

/-- C8 (amended): `_FX0A` blocks inside the handler: for every finite
sequence of polled events none of which presses a mapped key (and none
of which is `QUIT`), the handler does not return — there is no
`WaitingForKey` state handed back to the host per polling attempt. -/
theorem c8_amended (s : CPUState) (x : Nat) (events : List Event)
    (h : ∀ e ∈ events, stillWaiting e = true) :
    fx0aLoop s x events = none := by
  induction events generalizing s with
  | nil => rfl
  | cons e rest ih =>
    have h0 := h e (List.mem_cons_self e rest)
    cases e with
    | quit => simp [stillWaiting] at h0
    | other =>
      simp only [fx0aLoop]
      exact ih s (fun w hw => h w (List.mem_cons_of_mem _ hw))
    | keydown pressed =>
      have hnone : ∀ val ∈ List.range 16, pressed.getD val false = false := by
        simp only [stillWaiting, Bool.not_eq_eq_eq_not, Bool.not_true,
          List.any_eq_false] at h0
        intro val hval
        exact Bool.eq_false_iff.mpr (h0 val hval)
      simp only [fx0aLoop, keyScan_no_press pressed s.v x (List.range 16) hnone,
        Bool.false_eq_true, if_false]
      exact ih _ (fun w hw => h w (List.mem_cons_of_mem _ hw))

/-- C8 (witness): the amended statement for a concrete two-event polling
sequence with no mapped key pressed. -/
theorem c8_witness :
    fx0aLoop testState 0 [Event.other, Event.keydown (List.replicate 16 false)] = none :=
  c8_amended testState 0 [Event.other, Event.keydown (List.replicate 16 false)] (by decide)

end Chip8

namespace Chip8

theorem bind_some_elim {α β : Type} {x : Option α} {f : α → Option β} {b : β}
    (h : (x >>= f) = some b) : ∃ a, x = some a ∧ f a = some b := by
  cases x with
  | none => simp at h
  | some a => exact ⟨a, rfl, by simpa using h⟩

theorem lset_some {α : Type} {l : List α} {i : Nat} {a : α} {l2 : List α}
    (h : lset l i a = some l2) : i < l.length ∧ l2 = l.set i a := by
  unfold lset at h
  split at h
  · rename_i hlt
    cases h
    exact ⟨hlt, rfl⟩
  · cases h

/-- One drawn row preserves the display-buffer length. -/
theorem drawCols_length (cols : List Nat) (pixel posX base : Nat)
    (gfx v gfx2 v2 : List Nat)
    (h : drawCols pixel posX base cols (gfx, v) = some (gfx2, v2)) :
    gfx2.length = gfx.length := by
  induction cols generalizing gfx v with
  | nil =>
    simp only [drawCols, Option.some.injEq, Prod.mk.injEq] at h
    rw [← h.1]
  | cons x xs ih =>
    simp only [drawCols] at h
    split at h
    · obtain ⟨old, hold, h⟩ := bind_some_elim h
      split at h <;>
        (obtain ⟨v1, hv1, h⟩ := bind_some_elim h;
         obtain ⟨gfx1, hgfx1, h⟩ := bind_some_elim h;
         obtain ⟨hlt, rfl⟩ := lset_some hgfx1;
         have hr := ih _ _ h;
         simpa using hr)
    · exact ih _ _ h

/-- If a drawn row succeeded, every set sprite bit addressed a flat index
inside the display buffer. -/
theorem drawCols_bounds (cols : List Nat) (pixel posX base : Nat)
    (gfx v gfx2 v2 : List Nat)
    (h : drawCols pixel posX base cols (gfx, v) = some (gfx2, v2)) :
    ∀ c ∈ cols, pixel &&& (0x80 >>> c) ≠ 0 → posX + c + base < gfx.length := by
  induction cols generalizing gfx v with
  | nil => intro c hc; cases hc
  | cons x xs ih =>
    intro c hc hbit
    simp only [drawCols] at h
    rcases List.mem_cons.mp hc with rfl | hcs
    · rw [if_pos hbit] at h
      obtain ⟨old, hold, h⟩ := bind_some_elim h
      exact lget_some_lt hold
    · split at h
      · obtain ⟨old, hold, h⟩ := bind_some_elim h
        split at h <;>
          (obtain ⟨v1, hv1, h⟩ := bind_some_elim h;
           obtain ⟨gfx1, hgfx1, h⟩ := bind_some_elim h;
           obtain ⟨hlt, rfl⟩ := lset_some hgfx1;
           have hr := ih _ _ h c hcs hbit;
           simpa using hr)
      · exact ih _ _ h c hcs hbit

/-- A drawn row does not touch flat indices outside its own targets. -/
theorem drawCols_untouched (cols : List Nat) (pixel posX base : Nat)
    (gfx v gfx2 v2 : List Nat)
    (h : drawCols pixel posX base cols (gfx, v) = some (gfx2, v2))
    (j : Nat) (hj : ∀ c ∈ cols, posX + c + base ≠ j) :
    lget gfx2 j = lget gfx j := by
  induction cols generalizing gfx v with
  | nil =>
    simp only [drawCols, Option.some.injEq, Prod.mk.injEq] at h
    rw [h.1]
  | cons x xs ih =>
    simp only [drawCols] at h
    split at h
    · obtain ⟨old, hold, h⟩ := bind_some_elim h
      split at h <;>
        (obtain ⟨v1, hv1, h⟩ := bind_some_elim h;
         obtain ⟨gfx1, hgfx1, h⟩ := bind_some_elim h;
         obtain ⟨hlt, rfl⟩ := lset_some hgfx1;
         rw [ih _ _ h (fun c hc => hj c (List.mem_cons_of_mem x hc))];
         simp [lget, List.getElem?_set_ne (hj x (List.mem_cons_self x xs))])
    · exact ih _ _ h (fun c hc => hj c (List.mem_cons_of_mem x hc))

/-- Within one drawn row, every set sprite bit at column `c` XORs the
flat buffer exactly at index `posX + c + base`. -/
theorem drawCols_target (cols : List Nat) (pixel posX base : Nat)
    (gfx v gfx2 v2 : List Nat)
    (h : drawCols pixel posX base cols (gfx, v) = some (gfx2, v2))
    (hnd : cols.Nodup) :
    ∀ c ∈ cols, pixel &&& (0x80 >>> c) ≠ 0 →
      ∃ old, lget gfx (posX + c + base) = some old ∧
        lget gfx2 (posX + c + base) = some (old ^^^ 1) := by
  induction cols generalizing gfx v with
  | nil => intro c hc; cases hc
  | cons x xs ih =>
    have hx_not : x ∉ xs := (List.nodup_cons.mp hnd).1
    have hnd2 : xs.Nodup := (List.nodup_cons.mp hnd).2
    intro c hc hbit
    simp only [drawCols] at h
    rcases List.mem_cons.mp hc with rfl | hcs
    · rw [if_pos hbit] at h
      obtain ⟨old, hold, h⟩ := bind_some_elim h
      split at h <;>
        (obtain ⟨v1, hv1, h⟩ := bind_some_elim h;
         obtain ⟨gfx1, hgfx1, h⟩ := bind_some_elim h;
         obtain ⟨hlt, rfl⟩ := lset_some hgfx1;
         refine ⟨old, hold, ?_⟩;
         rw [drawCols_untouched xs pixel posX base _ _ _ _ h (posX + c + base)
           (fun w hw => by
             have hwc : w ≠ c := fun hwc => hx_not (hwc ▸ hw)
             omega)];
         simp [lget, List.getElem?_set_self hlt])
    · split at h
      · obtain ⟨old0, hold0, h⟩ := bind_some_elim h
        split at h <;>
          (obtain ⟨v1, hv1, h⟩ := bind_some_elim h;
           obtain ⟨gfx1, hgfx1, h⟩ := bind_some_elim h;
           obtain ⟨hlt, rfl⟩ := lset_some hgfx1;
           obtain ⟨old, holdg1, hfin⟩ := ih _ _ h hnd2 c hcs hbit;
           refine ⟨old, ?_, hfin⟩;
           rw [← holdg1];
           simp [lget, List.getElem?_set_ne (show posX + x + base ≠ posX + c + base by
             have hxc : x ≠ c := fun hxc => hx_not (hxc ▸ hcs)
             omega)])
      · exact ih _ _ h hnd2 c hcs hbit

end Chip8

namespace Chip8

/-- The whole draw loop preserves the display-buffer length. -/
theorem drawRows_length (rows : List Nat) (mem : List Nat) (i posX posY : Nat)
    (gfx v gfx2 v2 : List Nat)
    (h : drawRows mem i posX posY rows (gfx, v) = some (gfx2, v2)) :
    gfx2.length = gfx.length := by
  induction rows generalizing gfx v with
  | nil =>
    simp only [drawRows, Option.some.injEq, Prod.mk.injEq] at h
    rw [← h.1]
  | cons y ys ih =>
    simp only [drawRows] at h
    obtain ⟨pixel, hpix, h⟩ := bind_some_elim h
    obtain ⟨gv1, hgv1, h⟩ := bind_some_elim h
    obtain ⟨gfx1, v1⟩ := gv1
    exact (ih _ _ h).trans (drawCols_length _ _ _ _ _ _ _ _ hgv1)

/-- If the draw loop succeeded, every set sprite bit of every row
addressed a flat index inside the display buffer. -/
theorem drawRows_bounds (rows : List Nat) (mem : List Nat) (i posX posY : Nat)
    (gfx v gfx2 v2 : List Nat)
    (h : drawRows mem i posX posY rows (gfx, v) = some (gfx2, v2)) :
    ∀ y ∈ rows, ∀ c ∈ List.range 8,
      mem.getD (i + y) 0 &&& (0x80 >>> c) ≠ 0 →
      posX + c + (posY + y) * 64 < gfx.length := by
  induction rows generalizing gfx v with
  | nil => intro y hy; cases hy
  | cons y0 ys ih =>
    intro y hy c hc hbit
    simp only [drawRows] at h
    obtain ⟨pixel, hpix, h⟩ := bind_some_elim h
    obtain ⟨gv1, hgv1, h⟩ := bind_some_elim h
    obtain ⟨gfx1, v1⟩ := gv1
    rcases List.mem_cons.mp hy with rfl | hys
    · have hpixval : mem.getD (i + y) 0 = pixel := lget_some_getD hpix
      exact drawCols_bounds (List.range 8) pixel posX ((posY + y) * 64) _ _ _ _ hgv1
        c hc (hpixval ▸ hbit)
    · have hb := ih _ _ h y hys c hc hbit
      exact (drawCols_length _ _ _ _ _ _ _ _ hgv1) ▸ hb


end Chip8

namespace Chip8

/-- The draw loop does not touch flat indices outside the targets of its
rows. -/
theorem drawRows_untouched (rows : List Nat) (mem : List Nat) (i posX posY : Nat)
    (gfx v gfx2 v2 : List Nat)
    (h : drawRows mem i posX posY rows (gfx, v) = some (gfx2, v2))
    (j : Nat)
    (hj : ∀ y ∈ rows, ∀ c ∈ List.range 8, posX + c + (posY + y) * 64 ≠ j) :
    lget gfx2 j = lget gfx j := by
  induction rows generalizing gfx v with
  | nil =>
    simp only [drawRows, Option.some.injEq, Prod.mk.injEq] at h
    rw [h.1]
  | cons y0 ys ih =>
    simp only [drawRows] at h
    obtain ⟨pixel, hpix, h⟩ := bind_some_elim h
    obtain ⟨gv1, hgv1, h⟩ := bind_some_elim h
    obtain ⟨gfx1, v1⟩ := gv1
    have h1 := drawCols_untouched (List.range 8) pixel posX ((posY + y0) * 64)
      gfx v gfx1 v1 hgv1 j (fun c hc => hj y0 (List.mem_cons_self y0 ys) c hc)
    rw [ih _ _ h (fun y hy c hc => hj y (List.mem_cons_of_mem y0 hy) c hc), h1]

/-- Across the whole draw loop, every set sprite bit at row `y`, column
`c` XORs the flat buffer exactly at index `posX + c + (posY + y) * 64`:
the flat indices of distinct (row, column) pairs never collide, because
a column offset below 8 cannot bridge a multiple of 64. -/
theorem drawRows_target (rows : List Nat) (mem : List Nat) (i posX posY : Nat)
    (gfx v gfx2 v2 : List Nat)
    (h : drawRows mem i posX posY rows (gfx, v) = some (gfx2, v2))
    (hnd : rows.Nodup) :
    ∀ y ∈ rows, ∀ c ∈ List.range 8,
      mem.getD (i + y) 0 &&& (0x80 >>> c) ≠ 0 →
      ∃ old, lget gfx (posX + c + (posY + y) * 64) = some old ∧
        lget gfx2 (posX + c + (posY + y) * 64) = some (old ^^^ 1) := by
  induction rows generalizing gfx v with
  | nil => intro y hy; cases hy
  | cons y0 ys ih =>
    have hy0_not : y0 ∉ ys := (List.nodup_cons.mp hnd).1
    have hnd2 : ys.Nodup := (List.nodup_cons.mp hnd).2
    intro y hy c hc hbit
    have hc8 : c < 8 := List.mem_range.mp hc
    simp only [drawRows] at h
    obtain ⟨pixel, hpix, h1⟩ := bind_some_elim h
    obtain ⟨gv1, hgv1, h2⟩ := bind_some_elim h1
    obtain ⟨gfx1, v1⟩ := gv1
    rcases List.mem_cons.mp hy with rfl | hys
    · have hpixval : mem.getD (i + y) 0 = pixel := lget_some_getD hpix
      obtain ⟨old, hold, hmid⟩ := drawCols_target (List.range 8) pixel posX
        ((posY + y) * 64) gfx v gfx1 v1 hgv1 (List.nodup_range 8) c hc (hpixval ▸ hbit)
      refine ⟨old, hold, ?_⟩
      have hneq : ∀ w ∈ ys, ∀ d ∈ List.range 8,
          posX + d + (posY + w) * 64 ≠ posX + c + (posY + y) * 64 := by
        intro w hw d hd heq
        have hwy : w ≠ y := fun hwy => hy0_not (hwy ▸ hw)
        have hd8 : d < 8 := List.mem_range.mp hd
        omega
      rw [drawRows_untouched ys mem i posX posY gfx1 v1 gfx2 v2 h2 _ hneq]
      exact hmid
    · obtain ⟨old, hold1, hfin⟩ := ih _ _ h2 hnd2 y hys c hc hbit
      refine ⟨old, ?_, hfin⟩
      rw [← hold1]
      have hneq : ∀ d ∈ List.range 8,
          posX + d + (posY + y0) * 64 ≠ posX + c + (posY + y) * 64 := by
        intro d hd heq
        have hy0y : y0 ≠ y := fun h0 => hy0_not (h0 ▸ hys)
        have hd8 : d < 8 := List.mem_range.mp hd
        omega
      exact (drawCols_untouched (List.range 8) pixel posX ((posY + y0) * 64)
        gfx v gfx1 v1 hgv1 _ hneq).symm

/-- C10 (amended): the draw instruction `DXYN` neither wraps nor clips.
Whenever it completes (`opDXYN = some t`), every set sprite bit at row
`y`, column `c` is XORed into the flat buffer at exactly index
`VX + c + 64*(VY + y)`, which must therefore be below 2048 (so a set
bit whose flat index reaches 2048 makes the handler's buffer indexing
fail instead of drawing a wrapped or clipped pixel); when that index is
below 2048 and `VX + c < 128`, it lies in display row `VY + y + 1`, the
row following the nominal one (for `VX + c ≥ 128` it lands two or more
rows below). -/
theorem c10_dxyn_no_wrap_no_clip (s : CPUState) (opcode : Nat) (t : CPUState)
    (hg : s.gfx.length = 2048) (hsome : opDXYN s opcode = some t) :
    ∀ y, y < get_n opcode → ∀ c, c < 8 →
      s.memory.getD (s.i + y) 0 &&& (0x80 >>> c) ≠ 0 →
      (s.v.getD (get_x opcode) 0 + c + (s.v.getD (get_y opcode) 0 + y) * 64 < 2048
      ∧ t.gfx.getD (s.v.getD (get_x opcode) 0 + c + (s.v.getD (get_y opcode) 0 + y) * 64) 0
          = s.gfx.getD (s.v.getD (get_x opcode) 0 + c + (s.v.getD (get_y opcode) 0 + y) * 64) 0 ^^^ 1
      ∧ (63 < s.v.getD (get_x opcode) 0 + c → s.v.getD (get_x opcode) 0 + c < 128 →
          (s.v.getD (get_x opcode) 0 + c + (s.v.getD (get_y opcode) 0 + y) * 64) / 64
            = s.v.getD (get_y opcode) 0 + y + 1)) := by
  unfold opDXYN at hsome
  obtain ⟨posX, hposX, hsome⟩ := bind_some_elim hsome
  obtain ⟨posY, hposY, hsome⟩ := bind_some_elim hsome
  obtain ⟨v1, hv1, hsome⟩ := bind_some_elim hsome
  obtain ⟨gv, hgv, hsome⟩ := bind_some_elim hsome
  obtain ⟨gfx2, vout⟩ := gv
  have ht : t = { s with gfx := gfx2, v := vout, shouldDraw := true, pc := s.pc + 2 } := by
    cases hsome
    rfl
  have hpx : s.v.getD (get_x opcode) 0 = posX := lget_some_getD hposX
  have hpy : s.v.getD (get_y opcode) 0 = posY := lget_some_getD hposY
  intro y hy c hc hbit
  have hym := List.mem_range.mpr hy
  have hcm := List.mem_range.mpr hc
  refine ⟨?_, ?_, ?_⟩
  · rw [hpx, hpy, ← hg]
    exact drawRows_bounds (List.range (get_n opcode)) s.memory s.i posX posY
      s.gfx v1 gfx2 vout hgv y hym c hcm hbit
  · obtain ⟨old, hold, hnew⟩ := drawRows_target (List.range (get_n opcode)) s.memory s.i
      posX posY s.gfx v1 gfx2 vout hgv (List.nodup_range _) y hym c hcm hbit
    rw [hpx, hpy, ht]
    simp only []
    rw [lget_some_getD hnew, lget_some_getD hold]
  · rw [hpx, hpy]
    intro hgt hlt
    omega

end Chip8

namespace Chip8

set_option maxHeartbeats 1000000 in
set_option maxRecDepth 5000 in
/-- Evaluation of `DXYN` on the one-bit sprite scenario: drawing the
single-byte sprite `0x80` at `(px, 0)` with `px < 2048` succeeds, XORs
exactly the flat buffer index `px + 0 + 0*64 = px`, and advances the
program counter by 2. -/
theorem spriteState_eval (px : Nat) (hpx : px < 2048) :
    opDXYN (spriteState px) 0xD011 = some
      { spriteState px with
        gfx := (spriteState px).gfx.set px 1
        v := (spriteState px).v.set 15 0
        shouldDraw := true
        pc := (spriteState px).pc + 2 } := by
  have hglt : px < (spriteState px).gfx.length := by
    show px < (List.replicate 2048 (0 : Nat)).length
    rw [List.length_replicate]
    exact hpx
  have hgget : lget (spriteState px).gfx px = some 0 := by
    show lget (List.replicate 2048 (0 : Nat)) px = some 0
    unfold lget
    exact List.getElem?_replicate_of_lt hpx
  have hxor : (0 : Nat) ^^^ 1 = 1 := by decide
  have hgset : lset (spriteState px).gfx px 1 = some ((spriteState px).gfx.set px 1) :=
    lset_eq_some hglt 1
  have hv0 : lget (spriteState px).v 0 = some px := by
    show lget ((List.replicate 16 0).set 0 px) 0 = some px
    simp [lget]
  have hv1 : lget (spriteState px).v 1 = some 0 := by
    show lget ((List.replicate 16 0).set 0 px) 1 = some 0
    simp [lget]
  have hsetv : lset (spriteState px).v 15 0 = some ((spriteState px).v.set 15 0) := by
    apply lset_eq_some
    show (15 : Nat) < ((List.replicate 16 0).set 0 px).length
    simp
  have hmem : lget (spriteState px).memory ((spriteState px).i + 0) = some 0x80 := by
    show lget [0x80] (0 + 0) = some 0x80
    rfl
  have hrange8 : List.range 8 = [0, 1, 2, 3, 4, 5, 6, 7] := by decide
  have hrange1 : List.range 1 = [0] := by decide
  have hcols : drawCols 0x80 px 0 [0, 1, 2, 3, 4, 5, 6, 7]
      ((spriteState px).gfx, (spriteState px).v.set 15 0) =
      some ((spriteState px).gfx.set px 1, (spriteState px).v.set 15 0) := by
    generalize hG : (spriteState px).gfx = G at hgget hgset ⊢
    rw [drawCols]
    rw [if_pos (by decide : (128 : Nat) &&& (128 >>> 0) ≠ 0)]
    simp only [Nat.add_zero]
    rw [hgget]
    simp only [Option.bind_eq_bind, Option.some_bind]
    rw [if_neg (by decide : ¬((0 : Nat) = 1))]
    rw [hxor]
    rw [hgset]
    simp only [Option.some_bind]
    rw [drawCols, if_neg (by decide : ¬((128 : Nat) &&& (128 >>> 1) ≠ 0))]
    rw [drawCols, if_neg (by decide : ¬((128 : Nat) &&& (128 >>> 2) ≠ 0))]
    rw [drawCols, if_neg (by decide : ¬((128 : Nat) &&& (128 >>> 3) ≠ 0))]
    rw [drawCols, if_neg (by decide : ¬((128 : Nat) &&& (128 >>> 4) ≠ 0))]
    rw [drawCols, if_neg (by decide : ¬((128 : Nat) &&& (128 >>> 5) ≠ 0))]
    rw [drawCols, if_neg (by decide : ¬((128 : Nat) &&& (128 >>> 6) ≠ 0))]
    rw [drawCols, if_neg (by decide : ¬((128 : Nat) &&& (128 >>> 7) ≠ 0))]
    rw [drawCols]
  have hrows : drawRows (spriteState px).memory (spriteState px).i px 0 [0]
      ((spriteState px).gfx, (spriteState px).v.set 15 0) =
      some ((spriteState px).gfx.set px 1, (spriteState px).v.set 15 0) := by
    generalize hG : (spriteState px).gfx = G at hcols ⊢
    rw [drawRows]
    rw [hmem]
    simp only [Option.bind_eq_bind, Option.some_bind]
    rw [(by norm_num : ((0 + 0) * 64 : Nat) = 0), hrange8, hcols]
    simp only [Option.some_bind]
    rw [drawRows]
  have hgx : get_x 0xD011 = 0 := by decide
  have hgy : get_y 0xD011 = 1 := by decide
  have hgn : get_n 0xD011 = 1 := by decide
  unfold opDXYN
  generalize hG : (spriteState px).gfx = G at hrows ⊢
  rw [hgx, hgy, hgn, hv0, hv1]
  simp only [Option.bind_eq_bind, Option.some_bind]
  rw [hsetv]
  simp only [Option.some_bind]
  rw [hrange1, hrows]
  simp only [Option.some_bind]

/-- C10 (counterexample): the claim's "lies in the following display
row" is false for large start positions.  Drawing the one-byte sprite
`0x80` at `(200, 0)` succeeds, XORing the pixel at flat index
`200 + 0 + 0*64 = 200`, which is below 2048 and has `VX + c = 200 > 63`,
yet lies in display row `200 / 64 = 3`, not the following display row
`0 + 0 + 1 = 1`. -/
theorem c10_counterexample :
    (spriteState 200).v.getD 0 0 = 200
    ∧ opDXYN (spriteState 200) 0xD011 = some
      { spriteState 200 with
        gfx := (spriteState 200).gfx.set 200 1
        v := (spriteState 200).v.set 15 0
        shouldDraw := true
        pc := (spriteState 200).pc + 2 }
    ∧ 63 < 200 + 0
    ∧ (200 + 0 + (0 + 0) * 64 : Nat) < 2048
    ∧ ¬ ((200 + 0 + (0 + 0) * 64 : Nat) / 64 = 0 + 0 + 1) :=
  ⟨by decide, spriteState_eval 200 (by decide), by decide, by decide, by decide⟩

/-- C10 (witness): the amended statement at the one-byte sprite `0x80`
drawn at `(70, 0)`, instantiated at its single set bit (row 0, column
0): the bit lands at flat index 70 < 2048, is XORed there, and — since
`63 < 70 < 128` — lies in display row `70 / 64 = 1`, the row following
the nominal row 0. -/
theorem c10_witness :
    (spriteState 70).v.getD (get_x 0xD011) 0 + 0 +
        ((spriteState 70).v.getD (get_y 0xD011) 0 + 0) * 64 < 2048
    ∧ ({ spriteState 70 with
          gfx := (spriteState 70).gfx.set 70 1
          v := (spriteState 70).v.set 15 0
          shouldDraw := true
          pc := (spriteState 70).pc + 2 } : CPUState).gfx.getD
          ((spriteState 70).v.getD (get_x 0xD011) 0 + 0 +
            ((spriteState 70).v.getD (get_y 0xD011) 0 + 0) * 64) 0
        = (spriteState 70).gfx.getD
          ((spriteState 70).v.getD (get_x 0xD011) 0 + 0 +
            ((spriteState 70).v.getD (get_y 0xD011) 0 + 0) * 64) 0 ^^^ 1
    ∧ 63 < (spriteState 70).v.getD (get_x 0xD011) 0 + 0
    ∧ (spriteState 70).v.getD (get_x 0xD011) 0 + 0 < 128
    ∧ ((spriteState 70).v.getD (get_x 0xD011) 0 + 0 +
          ((spriteState 70).v.getD (get_y 0xD011) 0 + 0) * 64) / 64
        = (spriteState 70).v.getD (get_y 0xD011) 0 + 0 + 1 := by
  have h := c10_dxyn_no_wrap_no_clip (spriteState 70) 0xD011 _
    (List.length_replicate 2048 0) (spriteState_eval 70 (by decide))
    0 (by decide) 0 (by decide) (by decide)
  exact ⟨h.1, h.2.1, by decide, by decide, h.2.2 (by decide) (by decide)⟩

end Chip8
